import Mathlib

/-!
Verification of the AGIHebrew resource-archive text patcher.

Shallow embedding of the core of `tools/apply_inventory_descriptions_batch.py`
and `tools/read_viewdir_u24.py`.  Files are modelled as `List Nat` of byte
values; Python's unbounded ints are modelled as `Nat` (every subtraction that
could go negative in Python is guarded in the source before the value is used,
or the clamping is noted at the definition site).  Fallible code returns
`Except VErr`; the batch-level wrapper, which catches every exception and
turns it into a `False` result, returns a pair (new store, success flag).
-/

set_option maxRecDepth 4000

/-- Error taxonomy of the subsystem.  Each constructor corresponds to one
`raise` site in the Python source (the message strings are dropped). -/
inductive VErr where
  /-- `IndexError: index out of range` in the directory lookups. -/
  | indexOutOfRange
  /-- `ValueError: index has no view (offset=0xFFFFFF)`. -/
  | absentResource
  /-- `ValueError: computed non-positive resource size`. -/
  | invalidSpan
  /-- `ValueError: u24_from_bytes requires exactly 3 bytes`. -/
  | badSlice
  /-- `ValueError: could not read 2-byte text offset at offset+7`. -/
  | hdrShort
  /-- `ValueError: text_offset out of bounds for resource size`. -/
  | textOffsetOutOfBounds
  /-- `ValueError: insufficient data for 2-byte text length`. -/
  | insufficientData
  /-- `ValueError: no capacity for text payload`. -/
  | noCapacity
  /-- `ValueError: could not read 2-byte text length at start of text block`. -/
  | lenShort
  /-- `ValueError: could not read payload of N bytes at text block`. -/
  | payloadShort
  deriving DecidableEq, Repr

/-- Sentinel directory value meaning "no resource at this index"
(`ABSENT = 0xFFFFFF` in both tools). -/
def ABSENT : Nat := 0xFFFFFF

/-- `u24_from_bytes` from both tools: big-endian decoding of a 3-byte slice,
`(b[0] << 16) | (b[1] << 8) | b[2]`; raises unless given exactly 3 bytes. -/
def u24_from_bytes (b : List Nat) : Except VErr Nat :=
  match b with
  | [b0, b1, b2] => .ok ((b0 <<< 16) ||| ((b1 <<< 8) ||| b2))
  | _ => .error .badSlice

/-- The local `entry(i)` helper of the resolvers:
`u24_from_bytes(data[i*3 : i*3+3])`. -/
def direntry (dirdata : List Nat) (i : Nat) : Except VErr Nat :=
  u24_from_bytes ((dirdata.drop (i * 3)).take 3)

/-- The `for j in range(j, stop)` scan for the first directory entry that is
not ABSENT, written with explicit fuel (`fuel = stop - j` at the call site)
so that it is structural recursion.  Mirrors the loop body of the resolvers:
`v = entry(j); if v != ABSENT: next_off = v; break`. -/
def findNextValidFuel (dirdata : List Nat) (j : Nat) : Nat → Except VErr (Option Nat)
  | 0 => .ok none
  | fuel + 1 =>
    match direntry dirdata j with
    | .error e => .error e
    | .ok v => if v ≠ ABSENT then .ok (some v) else findNextValidFuel dirdata (j + 1) fuel

/-- Scan `j, j+1, ..., stop-1` for the first non-ABSENT entry value. -/
def findNextValid (dirdata : List Nat) (j stop : Nat) : Except VErr (Option Nat) :=
  findNextValidFuel dirdata j (stop - j)

/-- `get_offset_and_size_with_fallback` from
`apply_inventory_descriptions_batch.py` (the patch-path Resource Span
Resolver).  The file-existence checks are outside the model (the files are
the `dirdata` and store arguments).  `vol_size` stands for
`vol_path.stat().st_size`.  Python computes `size = next_off - cur` with
signed ints and then rejects `size <= 0`; over `Nat` the subtraction clamps
at 0 and the same guard `size ≤ 0` rejects exactly the same inputs. -/
def get_offset_and_size_with_fallback (index : Nat) (dirdata : List Nat) (vol_size : Nat) :
    Except VErr (Nat × Nat) :=
  let count := dirdata.length / 3
  if index ≥ count then .error .indexOutOfRange else
  match direntry dirdata index with
  | .error e => .error e
  | .ok cur =>
    if cur = ABSENT then .error .absentResource else
    match findNextValid dirdata (index + 1) count with
    | .error e => .error e
    | .ok next =>
      let size := match next with
        | some n => n - cur
        | none => max 0 (vol_size - cur)
      if size ≤ 0 then .error .invalidSpan else
      .ok (cur, size)

/-- `get_view_offset_and_size_with_fallback` from `read_viewdir_u24.py`
(the listing-path resolver).  Identical lookup and scan, but the source
returns `cur, next_off - cur` (resp. `cur, max(0, vol_size - cur)`) with NO
positivity check.  Note: over `Nat` the unguarded `next_off - cur` clamps a
negative Python result to 0; this model is only used on inputs where the
Python value is ≥ 0. -/
def get_view_offset_and_size_with_fallback (index : Nat) (dirdata : List Nat) (vol_size : Nat) :
    Except VErr (Nat × Nat) :=
  let count := dirdata.length / 3
  if index ≥ count then .error .indexOutOfRange else
  match direntry dirdata index with
  | .error e => .error e
  | .ok cur =>
    if cur = ABSENT then .error .absentResource else
    match findNextValid dirdata (index + 1) count with
    | .error e => .error e
    | .ok next =>
      match next with
      | some n => .ok (cur, n - cur)
      | none => .ok (cur, max 0 (vol_size - cur))

/-- The header-geometry part of `compute_text_payload_region` (source lines
77-93), as a function of the 2-byte header slice it reads first
(`f.seek(offset + 8); hdr = f.read(2)`); the caller passes that slice in.
The source's two statements `if text_offset > total_size: text_offset =
hdr[1]` followed by `if text_offset > total_size: raise` are rendered as one
combined failure test plus a conditional value, which is equivalent.
NOTE the source decodes `text_offset = (hdr[1] << 8) | hdr[0]` —
little-endian — even though its own docstring says "big-endian". -/
def text_region_geometry (offset total_size : Nat) (hdr : List Nat) :
    Except VErr (Nat × Nat) :=
  if hdr.length ≠ 2 then .error .hdrShort else
  let b0 := hdr.headD 0
  let b1 := (hdr.drop 1).headD 0
  let t0 := (b1 <<< 8) ||| b0
  if t0 > total_size ∧ b1 > total_size then .error .textOffsetOutOfBounds else
  let text_offset := if t0 > total_size then b1 else t0
  let start := offset + text_offset + 3
  if start + 2 > offset + total_size then .error .insufficientData else
  let payload_start := start + 2
  let capacity := total_size - (payload_start - offset)
  if capacity ≤ 0 then .error .noCapacity else
  .ok (payload_start, capacity)

/-- `compute_text_payload_region` from `apply_inventory_descriptions_batch.py`
(the patch-path Text Block Locator): the geometry above composed with the
trailing-NUL inspection of the existing payload (source lines 95-99,
`current = f.read(capacity); has_trailing_nul = len(current) > 0 and
current[-1] == 0`, where a read at/after EOF simply returns fewer bytes). -/
def compute_text_payload_region (offset total_size : Nat) (vol : List Nat) :
    Except VErr (Nat × Nat × Bool) :=
  match text_region_geometry offset total_size ((vol.drop (offset + 8)).take 2) with
  | .error e => .error e
  | .ok (payload_start, capacity) =>
    let current := (vol.drop payload_start).take capacity
    .ok (payload_start, capacity, current.getLast? == some 0)

/-- `_extract_text_data` from `read_viewdir_u24.py` (the listing-path Text
Block Locator + payload read).  This path seeks to `offset + 7` (not 8) and
decodes the two bytes BIG-endian: `text_offset = (hdr[0] << 8) | hdr[1]`.
The same two-tier fallback to `hdr[1]` follows.  The Python guard
`text_len < 0` after the `start + 2 > offset + total_size` check is
unreachable (the check already forces `payload_start - offset ≤ total_size`)
and over `Nat` the subtraction clamps, so that branch is omitted. -/
def _extract_text_data (offset total_size : Nat) (vol : List Nat) :
    Except VErr (List Nat) :=
  let hdr := (vol.drop (offset + 7)).take 2
  if hdr.length ≠ 2 then .error .hdrShort else
  let b0 := hdr.headD 0
  let b1 := (hdr.drop 1).headD 0
  let t0 := (b0 <<< 8) ||| b1
  if t0 > total_size ∧ b1 > total_size then .error .textOffsetOutOfBounds else
  let text_offset := if t0 > total_size then b1 else t0
  let start := offset + text_offset + 3
  if start + 2 > offset + total_size then .error .insufficientData else
  let len_bytes := (vol.drop start).take 2
  if len_bytes.length ≠ 2 then .error .lenShort else
  let payload_start := start + 2
  let text_len := total_size - (payload_start - offset)
  let data := (vol.drop payload_start).take text_len
  if data.length ≠ text_len then .error .payloadShort else
  .ok data

/-- Latin-1 decoding as used by the listing tool: each byte maps 1:1 to the
Unicode code point with the same value (`data.decode('latin-1')`). -/
def latin1_decode (data : List Nat) : List Char := data.map Char.ofNat

/-- `print_view_text` from `read_viewdir_u24.py`, as the text value it
prints: extract, truncate at the first NUL (`end = data.find(b"\x00")`),
decode latin-1. -/
def print_view_text (offset total_size : Nat) (vol : List Nat) :
    Except VErr (List Char) :=
  match _extract_text_data offset total_size vol with
  | .error e => .error e
  | .ok data => .ok (latin1_decode (data.takeWhile (fun b => b != 0)))

/-- The per-index text produced by `list_all_view_texts` in
`read_viewdir_u24.py` (the `<text>` part of the `"{i}|{text}"` line).
Mirrors the loop body: absent entries yield an empty text; the size is
`next_off - cur` or `max(0, vol_size - cur)`; any extraction error yields an
empty text (the `except` clause).  `direntry`/`findNextValid` errors cannot
occur for an in-range `i`; they also map to the empty text. -/
def listing_text (i : Nat) (dirdata vol : List Nat) : List Char :=
  match direntry dirdata i with
  | .error _ => []
  | .ok cur =>
    if cur = ABSENT then [] else
    match findNextValid dirdata (i + 1) (dirdata.length / 3) with
    | .error _ => []
    | .ok next =>
      let total_size := match next with
        | some n => n - cur
        | none => max 0 (vol.length - cur)
      match _extract_text_data cur total_size vol with
      | .error _ => []
      | .ok raw => latin1_decode (raw.takeWhile (fun b => b != 0))

/-- Modelled from the spec: the Windows-1255 ("cp1255") character encoding
used by `message[::-1].encode('cp1255')`.  The codec itself is Python
standard-library code, not part of this repository; it is modelled on the
two ranges the spec's Hebrew texts use: ASCII maps to itself, the Hebrew
letter block U+05D0..U+05EA maps to 0xE0..0xFA, and any other code point is
rejected (the source catches the resulting encode error and fails the
update). -/
def cp1255_encode_char (c : Char) : Option Nat :=
  if c.toNat < 0x80 then some c.toNat
  else if 0x5D0 ≤ c.toNat ∧ c.toNat ≤ 0x5EA then some (c.toNat - 0x5D0 + 0xE0)
  else none

/-- Byte encoding of a whole string; `none` when any character is
unencodable (Python raises `UnicodeEncodeError`). -/
def cp1255_encode (s : List Char) : Option (List Nat) := s.mapM cp1255_encode_char

/-- Random-access write at byte position `pos` into a file whose current
contents are `vol` (`f.seek(pos); f.write(buf)` on a file opened `r+b`):
bytes before `pos` are kept, the buffer overwrites in place, bytes after the
buffer are kept, and — exactly as in POSIX/Python — a write that reaches
past the current end of file EXTENDS the file, zero-filling any seek gap. -/
def fileWrite (vol : List Nat) (pos : Nat) (buf : List Nat) : List Nat :=
  vol.take pos ++ List.replicate (pos - vol.length) 0 ++ buf ++ vol.drop (pos + buf.length)

/-- `update_view_text` from `apply_inventory_descriptions_batch.py` (the
Capacity-Constrained Patch Writer).  Returns the new store contents and the
success flag; every caught exception and every printed ERROR path returns
the store unchanged with `false`.  The short-write check cannot fire in this
model (`fileWrite` always writes the whole buffer).  Note the source
re-reverses its argument before encoding: `message[::-1].encode('cp1255')`. -/
def update_view_text (index : Nat) (message : List Char) (dirdata vol : List Nat)
    (dry_run : Bool) : List Nat × Bool :=
  match get_offset_and_size_with_fallback index dirdata vol.length with
  | .error _ => (vol, false)
  | .ok (off, total) =>
    match compute_text_payload_region off total vol with
    | .error _ => (vol, false)
    | .ok (payload_start, capacity, has_nul) =>
      match cp1255_encode message.reverse with
      | none => (vol, false)
      | some new_bytes =>
        let content_cap := if has_nul && decide (0 < capacity) then capacity - 1 else capacity
        if new_bytes.length > content_cap then (vol, false) else
        let pad_len := content_cap - new_bytes.length
        let buf := new_bytes ++ List.replicate pad_len 0x20
        let buf2 := if has_nul && decide (0 < capacity) then buf ++ [0] else buf
        if dry_run then (vol, true) else
        (fileWrite vol payload_start buf2, true)

/-- ASCII whitespace test backing Python's `str.strip` / `str.lstrip`
(the input indices and texts only use ASCII whitespace). -/
def isSpaceChar (c : Char) : Bool :=
  c = ' ' || c = '\t' || c = '\n' || c = '\r' || c = '\x0b' || c = '\x0c'

/-- Python `s.lstrip()`. -/
def pyLstrip (s : List Char) : List Char := s.dropWhile isSpaceChar

/-- Python `s.strip()`. -/
def pyStrip (s : List Char) : List Char :=
  ((s.dropWhile isSpaceChar).reverse.dropWhile isSpaceChar).reverse

/-- Python `s.isdigit()` restricted to ASCII digits: non-empty and all
characters in `'0'..'9'`. -/
def pyIsDigit (s : List Char) : Bool :=
  !s.isEmpty && s.all (fun c => '0' ≤ c && c ≤ '9')

/-- Decimal value of a digit string (`int(idx_str)` on a digits-only string). -/
def digitsToNat (s : List Char) : Nat :=
  s.foldl (fun a c => a * 10 + (c.toNat - '0'.toNat)) 0

/-- Result of parsing one input line in `iter_lines`. -/
inductive ParsedLine where
  /-- Empty line: silently skipped (`if not line: continue`). -/
  | blank
  /-- Missing `'|'` separator or non-numeric index: yielded with an error
  message, counted as skipped by the driver. -/
  | malformed
  /-- A well-formed `index|text` record. -/
  | entry (idx : Nat) (msg : List Char)
  deriving DecidableEq, Repr

/-- `line.split("|", 1)`: split at the first separator, or `none` when the
separator does not occur. -/
def splitOnce (sep : Char) : List Char → Option (List Char × List Char)
  | [] => none
  | c :: rest =>
    if c = sep then some ([], rest)
    else match splitOnce sep rest with
      | some (a, b) => some (c :: a, b)
      | none => none

/-- Per-line behaviour of `iter_lines` (after newline stripping, which is
part of the out-of-scope file-decoding layer): skip empty lines, reject
lines without `'|'`, strip the index field, left-strip the message, reject
non-numeric indices. -/
def parse_line (line : List Char) : ParsedLine :=
  if line.isEmpty then .blank
  else match splitOnce '|' line with
    | none => .malformed
    | some (a, b) =>
      let idx_str := pyStrip a
      let msg := pyLstrip b
      if pyIsDigit idx_str then .entry (digitsToNat idx_str) msg else .malformed

/-- The aggregate state of the `main` batch loop: the evolving store and the
three counters it reports (`processed`, `ok`, `skipped`). -/
structure BatchState where
  vol : List Nat
  total : Nat
  ok : Nat
  skipped : Nat
  deriving DecidableEq, Repr

/-- The range filter of the driver: `main` skips an index below
`--start-index` or above `--end-index` (each only when given). -/
def line_in_range (s e : Option Nat) (idx : Nat) : Bool :=
  !(match s with | some a => decide (idx < a) | none => false) &&
  !(match e with | some b => decide (b < idx) | none => false)

/-- One iteration of the `main` loop of
`apply_inventory_descriptions_batch.py`: malformed lines bump `skipped`;
in-range well-formed lines bump `total`, reverse the message
(`rev_msg = msg[::-1]`), run `update_view_text`, and bump `ok` on success. -/
def batch_step (dirdata : List Nat) (s e : Option Nat) (dry : Bool)
    (st : BatchState) (line : List Char) : BatchState :=
  match parse_line line with
  | .blank => st
  | .malformed => { st with skipped := st.skipped + 1 }
  | .entry idx msg =>
    if line_in_range s e idx then
      let r := update_view_text idx msg.reverse dirdata st.vol dry
      { vol := r.1, total := st.total + 1,
        ok := st.ok + (if r.2 then 1 else 0), skipped := st.skipped }
    else st

/-- The whole batch run of `main`: fold the step over the input lines in
input order, starting from the given store and zeroed counters. -/
def apply_all (lines : List (List Char)) (dirdata vol : List Nat)
    (s e : Option Nat) (dry : Bool) : BatchState :=
  lines.foldl (batch_step dirdata s e dry) ⟨vol, 0, 0, 0⟩

/-- Declarative restatement for the claim on batch counts: a line is
well-formed and inside the index range. -/
def is_wf_in_range (s e : Option Nat) (line : List Char) : Bool :=
  match parse_line line with
  | .entry idx _ => line_in_range s e idx
  | _ => false

/-- Declarative restatement: a line is malformed (missing separator or
non-numeric index). -/
def is_malformed (line : List Char) : Bool :=
  match parse_line line with
  | .malformed => true
  | _ => false

/-- Declarative restatement of the per-line patch outcomes: the success flag
of each processed (well-formed, in-range) line, with the store threaded
through in input order. -/
def success_flags (dirdata : List Nat) (s e : Option Nat) (dry : Bool) :
    List Nat → List (List Char) → List Bool
  | _, [] => []
  | vol, line :: rest =>
    match parse_line line with
    | .entry idx msg =>
      if line_in_range s e idx then
        let r := update_view_text idx msg.reverse dirdata vol dry
        r.2 :: success_flags dirdata s e dry r.1 rest
      else success_flags dirdata s e dry vol rest
    | _ => success_flags dirdata s e dry vol rest

/-! ### Concrete example stores used by witnesses and counterexamples -/

/-- Directory of the spec's §8 scenario: entries `0x000010, 0xFFFFFF,
0x000040`, as raw bytes. -/
def dirC4 : List Nat := [0x00, 0x00, 0x10, 0xFF, 0xFF, 0xFF, 0x00, 0x00, 0x40]

/-- A two-entry directory: resource 0 at offset 0x10, next entry 0x40. -/
def dirEx : List Nat := [0x00, 0x00, 0x10, 0x00, 0x00, 0x40]

/-- A 64-byte store for `dirEx`: resource 0 spans `[0x10, 0x40)`.  Relative
to offset 0x10, byte 7 (abs 23) is 0, byte 8 (abs 24) is 8, byte 9 (abs 25)
is 0 — so both locators read `text_offset = 8`, the payload region is
`[29, 64)` with capacity 35, and the last byte (abs 63) is 0, so
`has_trailing_nul` is true and the content capacity is 34. -/
def volEx : List Nat :=
  (List.range 64).map fun i =>
    if i = 23 then 0 else if i = 24 then 8 else if i = 25 then 0 else
    if i = 63 then 0 else 1

/-- A two-entry directory whose second offset (0x20) lies beyond the end of
the 16-byte store `vol7` — the directory-derived span overruns the store. -/
def dir7 : List Nat := [0x00, 0x00, 0x00, 0x00, 0x00, 0x20]

/-- A 16-byte store for `dir7`: bytes 8 and 9 are 0 (text_offset 0), last
byte is 1 (no trailing NUL). -/
def vol7 : List Nat :=
  (List.range 16).map fun i => if i = 8 then 0 else if i = 9 then 0 else 1

/-- A two-entry directory for the idempotence counterexample: resource 0 at
offset 0, next entry 0x40. -/
def dir8 : List Nat := [0x00, 0x00, 0x00, 0x00, 0x00, 0x40]

/-- A 64-byte store for `dir8`: bytes 8 and 9 are 0, so the first patch
computes `text_offset = 0` and payload region `[5, 64)` — which OVERLAPS the
text-pointer bytes 8..9; the write fills them with 0x20, so a second
identical patch reads `text_offset = 0x2020`, falls back to the low byte 32,
and writes a different region. -/
def vol8 : List Nat :=
  (List.range 64).map fun i => if i = 8 then 0 else if i = 9 then 0 else
    if i = 63 then 0 else 1

/-! ### Helper lemmas -/

/-- Shift-or decoding of a 2-byte field equals positional arithmetic when the
low operand is a byte. -/
theorem lor_byte (hi lo : Nat) (h : lo < 256) : (hi <<< 8) ||| lo = 256 * hi + lo := by
  have h8 : lo < 2 ^ 8 := by norm_num; omega
  rw [Nat.shiftLeft_eq, Nat.mul_comm hi (2 ^ 8), ← Nat.mul_add_lt_is_or h8 hi]

theorem fileWrite_length (vol : List Nat) (pos : Nat) (buf : List Nat) :
    (fileWrite vol pos buf).length = max vol.length (pos + buf.length) := by
  simp [fileWrite]
  omega

theorem fileWrite_eq_of_le {vol : List Nat} {pos : Nat} (buf : List Nat)
    (h : pos ≤ vol.length) :
    fileWrite vol pos buf = vol.take pos ++ (buf ++ vol.drop (pos + buf.length)) := by
  simp [fileWrite, Nat.sub_eq_zero_of_le h]

/-- A write at `pos` does not disturb any slice that ends at or before `pos`. -/
theorem fileWrite_slice_below {vol buf : List Nat} {pos a n : Nat}
    (hpos : pos ≤ vol.length) (han : a + n ≤ pos) :
    ((fileWrite vol pos buf).drop a).take n = (vol.drop a).take n := by
  rw [fileWrite_eq_of_le buf hpos]
  have hlt : (vol.take pos).length = pos := by
    simp [Nat.min_eq_left hpos]
  rw [List.drop_append_of_le_length (by omega)]
  rw [List.take_append_of_le_length (by simp [hlt]; omega)]
  rw [List.drop_take, List.take_take]
  congr 1
  omega

/-- Reading back the written region returns the buffer. -/
theorem fileWrite_readback {vol : List Nat} {pos : Nat} (buf : List Nat)
    (h : pos ≤ vol.length) :
    ((fileWrite vol pos buf).drop pos).take buf.length = buf := by
  rw [fileWrite_eq_of_le buf h]
  have hlt : (vol.take pos).length = pos := by
    simp [Nat.min_eq_left h]
  rw [List.drop_append_of_le_length (by omega), List.drop_eq_nil_of_le (by omega),
    List.nil_append]
  exact List.take_left' rfl

/-- Writing bytes that are already there leaves the file unchanged. -/
theorem fileWrite_self {vol buf : List Nat} {pos : Nat}
    (hr : (vol.drop pos).take buf.length = buf) (hle : pos + buf.length ≤ vol.length) :
    fileWrite vol pos buf = vol := by
  rw [fileWrite_eq_of_le buf (by omega)]
  conv_rhs => rw [← List.take_append_drop pos vol]
  congr 1
  conv_rhs => rw [← List.take_append_drop buf.length (vol.drop pos)]
  rw [hr, List.drop_drop]

theorem getLast?_replicate (n : Nat) (a : Nat) :
    (List.replicate n a).getLast? = if n = 0 then none else some a := by
  induction n with
  | zero => simp
  | succ m ih =>
    cases m with
    | zero => simp
    | succ k =>
      rw [List.replicate_succ, List.replicate_succ, List.getLast?_cons_cons,
        ← List.replicate_succ, ih]
      simp

theorem takeWhile_append_all {p : Nat → Bool} {l₁ l₂ : List Nat}
    (h : ∀ b ∈ l₁, p b = true) :
    (l₁ ++ l₂).takeWhile p = l₁ ++ l₂.takeWhile p := by
  induction l₁ with
  | nil => simp
  | cons a t ih =>
    simp only [List.cons_append, List.takeWhile_cons, h a (by simp)]
    rw [ih (fun b hb => h b (by simp [hb]))]
    simp

/-- Basic facts delivered by a successful geometry computation. -/
theorem text_region_geometry_ok {off total : Nat} {hdr : List Nat} {p cap : Nat}
    (h : text_region_geometry off total hdr = .ok (p, cap)) :
    off + 5 ≤ p ∧ p ≤ off + total ∧ cap = total - (p - off) ∧ 0 < cap := by
  simp only [text_region_geometry] at h
  split_ifs at h with h1 h2 h3 h4 <;> simp only [Except.ok.injEq, Prod.mk.injEq] at h
  all_goals obtain ⟨hp, hc⟩ := h
  all_goals subst hp
  all_goals subst hc
  · refine ⟨by omega, by omega, by omega, by omega⟩
  · refine ⟨by omega, by omega, by omega, by omega⟩

/-- A successful locator run is a successful geometry run plus the
trailing-NUL inspection. -/
theorem compute_region_ok {off total : Nat} {vol : List Nat} {p cap : Nat} {nul : Bool}
    (h : compute_text_payload_region off total vol = .ok (p, cap, nul)) :
    text_region_geometry off total ((vol.drop (off + 8)).take 2) = .ok (p, cap) ∧
    nul = (((vol.drop p).take cap).getLast? == some 0) := by
  unfold compute_text_payload_region at h
  cases hg : text_region_geometry off total ((vol.drop (off + 8)).take 2) with
  | error e => rw [hg] at h; simp at h
  | ok pc =>
    obtain ⟨p', cap'⟩ := pc
    rw [hg] at h
    simp only [Except.ok.injEq, Prod.mk.injEq] at h
    obtain ⟨hp, hc, hn⟩ := h
    subst hp; subst hc; subst hn
    exact ⟨rfl, rfl⟩

/-- Converse direction: a successful geometry run determines the locator
result. -/
theorem compute_region_of_geometry {off total : Nat} {vol : List Nat} {p cap : Nat}
    (h : text_region_geometry off total ((vol.drop (off + 8)).take 2) = .ok (p, cap)) :
    compute_text_payload_region off total vol =
      .ok (p, cap, ((vol.drop p).take cap).getLast? == some 0) := by
  unfold compute_text_payload_region
  rw [h]

/-- Evaluation of the geometry on an explicit 2-byte header whose decoded
pointer value is `t0`, under no-fallback, in-bounds side conditions. -/
theorem text_region_geometry_eval_aux (off total b0 b1 t0 : Nat)
    (ht0 : ((b1 <<< 8) ||| b0) = t0) (hlt : t0 + 5 < total) :
    text_region_geometry off total [b0, b1] =
      .ok (off + t0 + 5, total - t0 - 5) := by
  subst ht0
  simp only [text_region_geometry, List.headD_cons, List.drop_succ_cons, List.drop_zero]
  have hg0 : ¬(([b0, b1] : List Nat).length ≠ 2) := by simp
  have hg1 : ¬(((b1 <<< 8) ||| b0) > total ∧ b1 > total) := by omega
  have hg2 : ¬(((b1 <<< 8) ||| b0) > total) := by omega
  simp only [if_neg hg0, if_neg hg1, if_neg hg2]
  have hg3 : ¬(off + ((b1 <<< 8) ||| b0) + 3 + 2 > off + total) := by omega
  have hg4 : ¬(total - (off + ((b1 <<< 8) ||| b0) + 3 + 2 - off) ≤ 0) := by omega
  simp only [if_neg hg3, if_neg hg4]
  have hfin1 : off + ((b1 <<< 8) ||| b0) + 3 + 2 = off + ((b1 <<< 8) ||| b0) + 5 := by omega
  have hfin2 : total - (off + ((b1 <<< 8) ||| b0) + 3 + 2 - off) =
      total - ((b1 <<< 8) ||| b0) - 5 := by omega
  rw [hfin2, hfin1]

/-- Same, with the little-endian decode spelled out as arithmetic: the
pointer value the patch path uses is `b0 + 256 * b1` where `b0` is the byte
at `offset+8` and `b1` the byte at `offset+9`. -/
theorem text_region_geometry_eval (off total b0 b1 : Nat)
    (hb0 : b0 < 256) (hlt : b0 + 256 * b1 + 5 < total) :
    text_region_geometry off total [b0, b1] =
      .ok (off + (b0 + 256 * b1) + 5, total - (b0 + 256 * b1) - 5) :=
  text_region_geometry_eval_aux off total b0 b1 (b0 + 256 * b1)
    (by rw [lor_byte b1 b0 hb0]; omega) hlt

/-- Evaluation of the listing-path extractor when its header slice decodes
to pointer value `t0`, under no-fallback, in-bounds side conditions. -/
theorem extract_text_data_eval_aux (off total b7 b8 t0 : Nat) (vol : List Nat)
    (hb : (vol.drop (off + 7)).take 2 = [b7, b8])
    (ht0 : ((b7 <<< 8) ||| b8) = t0)
    (hle : t0 + 5 ≤ total)
    (hlen : off + total ≤ vol.length) :
    _extract_text_data off total vol =
      .ok ((vol.drop (off + t0 + 5)).take (total - t0 - 5)) := by
  subst ht0
  simp only [_extract_text_data, hb, List.headD_cons, List.drop_succ_cons, List.drop_zero]
  have hg0 : ¬(([b7, b8] : List Nat).length ≠ 2) := by simp
  have hg1 : ¬(((b7 <<< 8) ||| b8) > total ∧ b8 > total) := by omega
  have hg2 : ¬(((b7 <<< 8) ||| b8) > total) := by omega
  simp only [if_neg hg0, if_neg hg1, if_neg hg2]
  have hg3 : ¬(off + ((b7 <<< 8) ||| b8) + 3 + 2 > off + total) := by omega
  simp only [if_neg hg3]
  have hlb : ((vol.drop (off + ((b7 <<< 8) ||| b8) + 3)).take 2).length = 2 := by
    simp only [List.length_take, List.length_drop]
    omega
  simp only [hlb]
  have hg4 : ¬((2 : Nat) ≠ 2) := by simp
  simp only [if_neg hg4]
  have hsub : off + ((b7 <<< 8) ||| b8) + 3 + 2 - off = ((b7 <<< 8) ||| b8) + 5 := by omega
  simp only [hsub]
  have hdl : ((vol.drop (off + ((b7 <<< 8) ||| b8) + 3 + 2)).take
      (total - (((b7 <<< 8) ||| b8) + 5))).length = total - (((b7 <<< 8) ||| b8) + 5) := by
    simp only [List.length_take, List.length_drop]
    omega
  simp only [hdl]
  have hg5 : ¬(total - (((b7 <<< 8) ||| b8) + 5) ≠ total - (((b7 <<< 8) ||| b8) + 5)) := by simp
  simp only [if_neg hg5]
  simp only [Except.ok.injEq]
  congr 1

/-- Same, with the big-endian decode spelled out as arithmetic: the pointer
value the listing path uses is `256 * b7 + b8` where `b7` is the byte at
`offset+7` and `b8` the byte at `offset+8`. -/
theorem extract_text_data_eval (off total b7 b8 : Nat) (vol : List Nat)
    (hb : (vol.drop (off + 7)).take 2 = [b7, b8])
    (hb8 : b8 < 256)
    (hle : 256 * b7 + b8 + 5 ≤ total)
    (hlen : off + total ≤ vol.length) :
    _extract_text_data off total vol =
      .ok ((vol.drop (off + (256 * b7 + b8) + 5)).take (total - (256 * b7 + b8) - 5)) :=
  extract_text_data_eval_aux off total b7 b8 (256 * b7 + b8) vol hb
    (by rw [lor_byte b7 b8 hb8]) (by omega) hlen

/-- What a successful patch-path resolution implies: in-range index, a
present directory entry, and the size formula with the positivity guard. -/
theorem resolver_ok_spec {index : Nat} {dirdata : List Nat} {vol_size off total : Nat}
    (h : get_offset_and_size_with_fallback index dirdata vol_size = .ok (off, total)) :
    index < dirdata.length / 3 ∧
    direntry dirdata index = .ok off ∧
    off ≠ ABSENT ∧
    0 < total ∧
    ∃ next, findNextValid dirdata (index + 1) (dirdata.length / 3) = .ok next ∧
      total = (match next with
        | some n => n - off
        | none => max 0 (vol_size - off)) := by
  simp only [get_offset_and_size_with_fallback] at h
  by_cases h1 : index ≥ dirdata.length / 3
  · rw [if_pos h1] at h
    simp at h
  · rw [if_neg h1] at h
    cases hd : direntry dirdata index with
    | error e => rw [hd] at h; simp at h
    | ok cur =>
      rw [hd] at h
      simp only [] at h
      by_cases h2 : cur = ABSENT
      · rw [if_pos h2] at h; simp at h
      · rw [if_neg h2] at h
        cases hn : findNextValid dirdata (index + 1) (dirdata.length / 3) with
        | error e => rw [hn] at h; simp at h
        | ok next =>
          rw [hn] at h
          simp only [] at h
          by_cases h3 : (match next with
            | some n => n - cur
            | none => max 0 (vol_size - cur)) ≤ 0
          · rw [if_pos h3] at h; simp at h
          · rw [if_neg h3] at h
            simp only [Except.ok.injEq, Prod.mk.injEq] at h
            obtain ⟨hc, ht⟩ := h
            subst hc
            exact ⟨by omega, rfl, h2, by omega, next, rfl, ht.symm⟩

/-- The accept path of the Patch Writer: with a resolved span, a located
region, an encodable message that fits, and `dry_run = False`, the update
writes content, space padding to the content capacity, and the preserved
NUL terminator when one existed, at `payload_start`. -/
theorem update_ok {idx : Nat} {msg : List Char} {dirdata vol : List Nat}
    {off total p cap : Nat} {nul : Bool} {enc : List Nat}
    (h1 : get_offset_and_size_with_fallback idx dirdata vol.length = .ok (off, total))
    (h2 : compute_text_payload_region off total vol = .ok (p, cap, nul))
    (h3 : cp1255_encode msg.reverse = some enc)
    (h4 : enc.length ≤ (if nul && decide (0 < cap) then cap - 1 else cap)) :
    update_view_text idx msg dirdata vol false =
      (fileWrite vol p
        ((enc ++ List.replicate
            ((if nul && decide (0 < cap) then cap - 1 else cap) - enc.length) 0x20) ++
          (if nul && decide (0 < cap) then [0] else [])), true) := by
  unfold update_view_text
  rw [h1]
  simp only []
  rw [h2]
  simp only []
  rw [h3]
  simp only []
  rw [if_neg (Nat.not_lt.mpr h4)]
  simp only [Bool.false_eq_true, if_false]
  cases hb : (nul && decide (0 < cap)) with
  | true => rfl
  | false => simp only [Bool.false_eq_true, if_false, List.append_nil]

/-- The reject path of the Patch Writer: a message whose encoding exceeds
the content capacity is rejected with the store untouched, regardless of
`dry_run`. -/
theorem update_too_long {idx : Nat} {msg : List Char} {dirdata vol : List Nat}
    {off total p cap : Nat} {nul : Bool} {enc : List Nat} (dry : Bool)
    (h1 : get_offset_and_size_with_fallback idx dirdata vol.length = .ok (off, total))
    (h2 : compute_text_payload_region off total vol = .ok (p, cap, nul))
    (h3 : cp1255_encode msg.reverse = some enc)
    (h4 : enc.length > (if nul && decide (0 < cap) then cap - 1 else cap)) :
    update_view_text idx msg dirdata vol dry = (vol, false) := by
  unfold update_view_text
  rw [h1]
  simp only []
  rw [h2]
  simp only []
  rw [h3]
  simp only []
  rw [if_pos h4]

/-- Conversely, a successful non-dry update means the message encoded and
fit the content capacity. -/
theorem update_true_spec {idx : Nat} {msg : List Char} {dirdata vol : List Nat}
    {off total p cap : Nat} {nul : Bool}
    (h1 : get_offset_and_size_with_fallback idx dirdata vol.length = .ok (off, total))
    (h2 : compute_text_payload_region off total vol = .ok (p, cap, nul))
    (hs : (update_view_text idx msg dirdata vol false).2 = true) :
    ∃ enc, cp1255_encode msg.reverse = some enc ∧
      enc.length ≤ (if nul && decide (0 < cap) then cap - 1 else cap) := by
  unfold update_view_text at hs
  rw [h1] at hs
  simp only [] at hs
  rw [h2] at hs
  simp only [] at hs
  cases he : cp1255_encode msg.reverse with
  | none => rw [he] at hs; simp at hs
  | some enc =>
    rw [he] at hs
    simp only [] at hs
    by_cases h4 : enc.length > (if nul && decide (0 < cap) then cap - 1 else cap)
    · rw [if_pos h4] at hs; simp at hs
    · exact ⟨enc, rfl, by omega⟩

theorem count_true_cons (b : Bool) (l : List Bool) :
    (b :: l).count true = l.count true + (if b then 1 else 0) := by
  cases b <;> simp [List.count_cons]

/-- Loop invariant of the batch driver: from any starting state, folding the
step over the input adds, to the starting counters, the number of
well-formed in-range lines (`processed`), the number of malformed lines
(`skipped`), and the number of successful per-line patches (`ok`). -/
theorem apply_all_loop (dirdata : List Nat) (s e : Option Nat) (dry : Bool) :
    ∀ (lines : List (List Char)) (st : BatchState),
      (lines.foldl (batch_step dirdata s e dry) st).total
          = st.total + lines.countP (is_wf_in_range s e) ∧
      (lines.foldl (batch_step dirdata s e dry) st).skipped
          = st.skipped + lines.countP is_malformed ∧
      (lines.foldl (batch_step dirdata s e dry) st).ok
          = st.ok + (success_flags dirdata s e dry st.vol lines).count true := by
  intro lines
  induction lines with
  | nil => intro st; simp [success_flags]
  | cons line rest ih =>
    intro st
    simp only [List.foldl_cons, List.countP_cons]
    cases hp : parse_line line with
    | blank =>
      have hb : batch_step dirdata s e dry st line = st := by
        unfold batch_step; rw [hp]
      have h1 : is_wf_in_range s e line = false := by
        unfold is_wf_in_range; rw [hp]
      have h2 : is_malformed line = false := by
        unfold is_malformed; rw [hp]
      have h3 : success_flags dirdata s e dry st.vol (line :: rest)
          = success_flags dirdata s e dry st.vol rest := by
        simp only [success_flags, hp]
      rw [hb, h1, h2, h3]
      obtain ⟨a1, a2, a3⟩ := ih st
      refine ⟨by rw [a1]; simp, by rw [a2]; simp, by rw [a3]⟩
    | malformed =>
      have hb : batch_step dirdata s e dry st line
          = { st with skipped := st.skipped + 1 } := by
        unfold batch_step; rw [hp]
      have h1 : is_wf_in_range s e line = false := by
        unfold is_wf_in_range; rw [hp]
      have h2 : is_malformed line = true := by
        unfold is_malformed; rw [hp]
      have h3 : success_flags dirdata s e dry st.vol (line :: rest)
          = success_flags dirdata s e dry st.vol rest := by
        simp only [success_flags, hp]
      rw [hb, h1, h2, h3]
      obtain ⟨a1, a2, a3⟩ := ih { st with skipped := st.skipped + 1 }
      refine ⟨by rw [a1]; simp, by rw [a2]; simp; omega, by rw [a3]⟩
    | entry idx msg =>
      by_cases hr : line_in_range s e idx = true
      · have hb : batch_step dirdata s e dry st line =
            { vol := (update_view_text idx msg.reverse dirdata st.vol dry).1,
              total := st.total + 1,
              ok := st.ok +
                (if (update_view_text idx msg.reverse dirdata st.vol dry).2 then 1 else 0),
              skipped := st.skipped } := by
          unfold batch_step
          rw [hp]
          simp only []
          rw [if_pos hr]
        have h1 : is_wf_in_range s e line = true := by
          unfold is_wf_in_range; rw [hp]; exact hr
        have h2 : is_malformed line = false := by
          unfold is_malformed; rw [hp]
        have h3 : success_flags dirdata s e dry st.vol (line :: rest)
            = (update_view_text idx msg.reverse dirdata st.vol dry).2 ::
              success_flags dirdata s e dry
                (update_view_text idx msg.reverse dirdata st.vol dry).1 rest := by
          simp only [success_flags, hp, hr, if_true]
        rw [hb, h1, h2, h3, count_true_cons]
        obtain ⟨a1, a2, a3⟩ := ih
          { vol := (update_view_text idx msg.reverse dirdata st.vol dry).1,
            total := st.total + 1,
            ok := st.ok +
              (if (update_view_text idx msg.reverse dirdata st.vol dry).2 then 1 else 0),
            skipped := st.skipped }
        refine ⟨by rw [a1]; simp; omega, by rw [a2]; simp, by rw [a3]; simp; omega⟩
      · have hb : batch_step dirdata s e dry st line = st := by
          unfold batch_step
          rw [hp]
          simp only []
          rw [if_neg hr]
        have h1 : is_wf_in_range s e line = false := by
          unfold is_wf_in_range; rw [hp]; simpa using hr
        have h2 : is_malformed line = false := by
          unfold is_malformed; rw [hp]
        have h3 : success_flags dirdata s e dry st.vol (line :: rest)
            = success_flags dirdata s e dry st.vol rest := by
          simp only [success_flags, hp]
          rw [if_neg hr]
        rw [hb, h1, h2, h3]
        obtain ⟨a1, a2, a3⟩ := ih st
        refine ⟨by rw [a1]; simp, by rw [a2]; simp, by rw [a3]⟩

/-- A locator error is exactly a geometry error. -/
theorem compute_region_err {off total : Nat} {vol : List Nat} {e : VErr} :
    compute_text_payload_region off total vol = .error e
      ↔ text_region_geometry off total ((vol.drop (off + 8)).take 2) = .error e := by
  unfold compute_text_payload_region
  cases hg : text_region_geometry off total ((vol.drop (off + 8)).take 2) with
  | error e2 => simp
  | ok pc => obtain ⟨p, c⟩ := pc; simp

/-- The geometry fails with the out-of-bounds error exactly when BOTH the
primary decode and the `hdr[1]` fallback exceed the span size. -/
theorem text_region_geometry_err_iff (off total b0 b1 : Nat) :
    (text_region_geometry off total [b0, b1] = .error .textOffsetOutOfBounds)
      ↔ (((b1 <<< 8) ||| b0) > total ∧ b1 > total) := by
  simp only [text_region_geometry, List.headD_cons, List.drop_succ_cons, List.drop_zero]
  rw [if_neg (show ¬(([b0, b1] : List Nat).length ≠ 2) by simp)]
  constructor
  · intro h
    by_cases hg : ((b1 <<< 8) ||| b0) > total ∧ b1 > total
    · exact hg
    · rw [if_neg hg] at h
      split_ifs at h <;> simp_all
  · intro hg
    rw [if_pos hg]

/-- Geometry evaluation when the primary decode is out of bounds but the
`hdr[1]` fallback is usable: the fallback byte becomes the text offset. -/
theorem text_region_geometry_fb (off total b0 b1 : Nat)
    (hgt : ((b1 <<< 8) ||| b0) > total) (hlt : b1 + 5 < total) :
    text_region_geometry off total [b0, b1] = .ok (off + b1 + 5, total - b1 - 5) := by
  simp only [text_region_geometry, List.headD_cons, List.drop_succ_cons, List.drop_zero]
  rw [if_neg (show ¬(([b0, b1] : List Nat).length ≠ 2) by simp)]
  rw [if_neg (show ¬(((b1 <<< 8) ||| b0) > total ∧ b1 > total) by omega)]
  simp only [if_pos hgt]
  rw [if_neg (show ¬(off + b1 + 3 + 2 > off + total) by omega)]
  rw [if_neg (show ¬(total - (off + b1 + 3 + 2 - off) ≤ 0) by omega)]
  have hfin1 : off + b1 + 3 + 2 = off + b1 + 5 := by omega
  have hfin2 : total - (off + b1 + 3 + 2 - off) = total - b1 - 5 := by omega
  rw [hfin2, hfin1]

/-- The listing-path extractor fails with the out-of-bounds error exactly
when both its big-endian primary decode and its `hdr[1]` fallback exceed
the span size. -/
theorem extract_err_iff (off total b7 b8 : Nat) (vol : List Nat)
    (hb : (vol.drop (off + 7)).take 2 = [b7, b8]) :
    (_extract_text_data off total vol = .error .textOffsetOutOfBounds)
      ↔ (((b7 <<< 8) ||| b8) > total ∧ b8 > total) := by
  simp only [_extract_text_data, hb, List.headD_cons, List.drop_succ_cons, List.drop_zero]
  rw [if_neg (show ¬(([b7, b8] : List Nat).length ≠ 2) by simp)]
  constructor
  · intro h
    by_cases hg : ((b7 <<< 8) ||| b8) > total ∧ b8 > total
    · exact hg
    · rw [if_neg hg] at h
      split_ifs at h <;> simp_all
  · intro hg
    rw [if_pos hg]

/-- Listing-path extraction in the fallback case: the byte at `offset+8`
(`hdr[1]`) alone is used as the text offset. -/
theorem extract_fb (off total b7 b8 : Nat) (vol : List Nat)
    (hb : (vol.drop (off + 7)).take 2 = [b7, b8])
    (hgt : ((b7 <<< 8) ||| b8) > total) (hle : b8 + 5 ≤ total)
    (hlen : off + total ≤ vol.length) :
    _extract_text_data off total vol
      = .ok ((vol.drop (off + b8 + 5)).take (total - b8 - 5)) := by
  simp only [_extract_text_data, hb, List.headD_cons, List.drop_succ_cons, List.drop_zero]
  rw [if_neg (show ¬(([b7, b8] : List Nat).length ≠ 2) by simp)]
  rw [if_neg (show ¬(((b7 <<< 8) ||| b8) > total ∧ b8 > total) by omega)]
  simp only [if_pos hgt]
  rw [if_neg (show ¬(off + b8 + 3 + 2 > off + total) by omega)]
  have hlb : ((vol.drop (off + b8 + 3)).take 2).length = 2 := by
    simp only [List.length_take, List.length_drop]
    omega
  simp only [hlb]
  rw [if_neg (show ¬((2 : Nat) ≠ 2) by simp)]
  have hsub : off + b8 + 3 + 2 - off = b8 + 5 := by omega
  simp only [hsub]
  have hdl : ((vol.drop (off + b8 + 3 + 2)).take (total - (b8 + 5))).length
      = total - (b8 + 5) := by
    simp only [List.length_take, List.length_drop]
    omega
  simp only [hdl]
  rw [if_neg (show ¬(total - (b8 + 5) ≠ total - (b8 + 5)) by simp)]
  simp only [Except.ok.injEq]
  congr 1

/-- Reduction of the per-index listing text once the directory lookups are
known: it is the NUL-trimmed latin-1 decode of the extracted bytes, or empty
on an extraction error. -/
theorem listing_text_eval {idx : Nat} {dirdata vol1 : List Nat} {off total : Nat}
    {next : Option Nat}
    (hd : direntry dirdata idx = .ok off)
    (habs : off ≠ ABSENT)
    (ht : (match next with
      | some n => n - off
      | none => max 0 (vol1.length - off)) = total)
    (hn : findNextValid dirdata (idx + 1) (dirdata.length / 3) = .ok next) :
    listing_text idx dirdata vol1 = (match _extract_text_data off total vol1 with
      | .error _ => []
      | .ok raw => latin1_decode (raw.takeWhile (fun b => b != 0))) := by
  unfold listing_text
  rw [hd]
  simp only []
  rw [if_neg habs, hn]
  simp only []
  cases next with
  | some n =>
    simp only []
    rw [show n - off = total from by simpa using ht]
  | none =>
    simp only []
    rw [show max 0 (vol1.length - off) = total from by simpa using ht]

/-! ### Claim theorems -/

/-- C4: with a directory table of exactly three entries 0x000010, 0xFFFFFF,
0x000040 and a store of total length 0x60, `resolve(0)` returns offset 0x10
and size 0x30 (the forward scan skips the absent entry at index 1 and uses
index 2's offset 0x40), and `resolve(2)` returns offset 0x40 and size 0x20
via the end-of-store fallback (0x60 - 0x40) — on both resolvers used by the
subsystem. -/
theorem c4_resolver_scenario :
    get_offset_and_size_with_fallback 0 dirC4 0x60 = .ok (0x10, 0x30) ∧
    get_offset_and_size_with_fallback 2 dirC4 0x60 = .ok (0x40, 0x20) ∧
    get_view_offset_and_size_with_fallback 0 dirC4 0x60 = .ok (0x10, 0x30) ∧
    get_view_offset_and_size_with_fallback 2 dirC4 0x60 = .ok (0x40, 0x20) :=
  ⟨rfl, rfl, rfl, rfl⟩

/-- C6 counterexample: the claim says EVERY resolver used by the subsystem
either fails or returns a span with size > 0.  The listing path's fallback
resolver, on the one-entry directory [0x000010] and a store of length 0x10,
returns a span of size 0 instead of failing. -/
theorem c6_counterexample :
    get_view_offset_and_size_with_fallback 0 [0x00, 0x00, 0x10] 0x10 = .ok (0x10, 0) :=
  rfl

/-- C6 (amended): the PATCH-path resolver either fails or returns a span of
positive size, rejecting any computed size ≤ 0; the listing path's fallback
resolver performs no positivity check and can return a span of size 0 (see
the counterexample). -/
theorem c6_patch_resolver_positive (index : Nat) (dirdata : List Nat)
    (vol_size off size : Nat)
    (h : get_offset_and_size_with_fallback index dirdata vol_size = .ok (off, size)) :
    0 < size :=
  (resolver_ok_spec h).2.2.2.1

/-- Witness for C6: the amended theorem applied to the spec's §8 scenario. -/
theorem c6_patch_resolver_positive_witness :
    get_offset_and_size_with_fallback 0 dirC4 0x60 = .ok (0x10, 0x30) ∧ (0 : Nat) < 0x30 :=
  ⟨rfl, c6_patch_resolver_positive 0 dirC4 0x60 0x10 0x30 rfl⟩

/-- C1 counterexample: span offset 0, size 1000, store bytes with b7 = 9,
b8 = 1, b9 = 2 (positions 7, 8, 9).  The claim predicts a primary
text_offset of b8*256 + b9 = 258 on both paths, i.e. payload_start
0 + 258 + 5 = 263.  The patch-path locator actually returns payload_start
518 = 0 + (2*256 + 1) + 5: it decodes the two bytes at offset+8 and
offset+9 LITTLE-endian. -/
theorem c1_counterexample :
    compute_text_payload_region 0 1000 [0, 0, 0, 0, 0, 0, 0, 9, 1, 2]
        = .ok (518, 482, false) ∧
    (518 : Nat) ≠ 0 + (1 * 256 + 2) + 5 :=
  ⟨rfl, by omega⟩

/-- C1 (amended): with bytes b7, b8, b9 at span.offset + 7, 8, 9, the patch
path (compute_text_payload_region) reads the two bytes at offset+8..9 and
decodes them little-endian, text_offset = b8 + 256*b9, while the listing
path (_extract_text_data) reads the two bytes at offset+7..8 and decodes
them big-endian, text_offset = 256*b7 + b8.  Neither path computes the
claimed b8*256 + b9. -/
theorem c1_amended (off total : Nat) (vol : List Nat) (b7 b8 b9 : Nat)
    (h7 : (vol.drop (off + 7)).take 2 = [b7, b8])
    (h8 : (vol.drop (off + 8)).take 2 = [b8, b9])
    (hb8 : b8 < 256)
    (hpatch : b8 + 256 * b9 + 5 < total)
    (hlist : 256 * b7 + b8 + 5 ≤ total)
    (hlen : off + total ≤ vol.length) :
    (∃ nul, compute_text_payload_region off total vol
        = .ok (off + (b8 + 256 * b9) + 5, total - (b8 + 256 * b9) - 5, nul)) ∧
    _extract_text_data off total vol
        = .ok ((vol.drop (off + (256 * b7 + b8) + 5)).take (total - (256 * b7 + b8) - 5)) := by
  constructor
  · have hg : text_region_geometry off total ((vol.drop (off + 8)).take 2)
        = .ok (off + (b8 + 256 * b9) + 5, total - (b8 + 256 * b9) - 5) := by
      rw [h8]
      exact text_region_geometry_eval off total b8 b9 hb8 hpatch
    exact ⟨_, compute_region_of_geometry hg⟩
  · exact extract_text_data_eval off total b7 b8 vol h7 hb8 hlist hlen

/-- Witness for C1 (amended): on the concrete store volEx at span
(0x10, 0x30), bytes 0, 8, 0 sit at offsets 23, 24, 25; both paths compute
text_offset 8 and payload region [29, 64). -/
theorem c1_amended_witness :
    (∃ nul, compute_text_payload_region 16 48 volEx
        = .ok (16 + (8 + 256 * 0) + 5, 48 - (8 + 256 * 0) - 5, nul)) ∧
    _extract_text_data 16 48 volEx
        = .ok ((volEx.drop (16 + (256 * 0 + 8) + 5)).take (48 - (256 * 0 + 8) - 5)) :=
  c1_amended 16 48 volEx 0 8 0 rfl rfl (by omega) (by omega) (by omega) (by decide)

/-- C3 counterexample: span offset 0, size 100, store bytes b8 = 1, b9 = 0.
The claim's primary (big-endian b8*256 + b9 = 256) exceeds the size, so the
claim mandates the low-byte fallback (b9 = 0, payload_start 5).  The patch
path's real primary (little-endian, 1) is in bounds, so no fallback
happens and payload_start is 6 ≠ 5. -/
theorem c3_counterexample :
    compute_text_payload_region 0 100 [0, 0, 0, 0, 0, 0, 0, 0, 1, 0]
        = .ok (6, 94, true) ∧
    (1 * 256 + 0 : Nat) > 100 ∧ (6 : Nat) ≠ 0 + 0 + 5 :=
  ⟨rfl, by omega, by omega⟩

/-- C3 (amended): the two-tier decision exists on both paths, but each path
triggers it from its own primary decode and retries with `hdr[1]` — which is
the byte at offset+9 on the patch path (the HIGH byte of its little-endian
primary b8 + 256*b9), and the byte at offset+8 on the listing path (the low
byte of its big-endian primary 256*b7 + b8).  TextOffsetOutOfBounds is
raised exactly when both the primary and `hdr[1]` exceed span.size. -/
theorem c3_amended (off total : Nat) (vol : List Nat) (b7 b8 b9 : Nat)
    (h7 : (vol.drop (off + 7)).take 2 = [b7, b8])
    (h8 : (vol.drop (off + 8)).take 2 = [b8, b9])
    (hb8 : b8 < 256) :
    (compute_text_payload_region off total vol = .error .textOffsetOutOfBounds
        ↔ (b8 + 256 * b9 > total ∧ b9 > total)) ∧
    (b8 + 256 * b9 > total → b9 + 5 < total →
        ∃ nul, compute_text_payload_region off total vol
          = .ok (off + b9 + 5, total - b9 - 5, nul)) ∧
    (_extract_text_data off total vol = .error .textOffsetOutOfBounds
        ↔ (256 * b7 + b8 > total ∧ b8 > total)) ∧
    (256 * b7 + b8 > total → b8 + 5 ≤ total → off + total ≤ vol.length →
        _extract_text_data off total vol
          = .ok ((vol.drop (off + b8 + 5)).take (total - b8 - 5))) := by
  have hlp : (b9 <<< 8) ||| b8 = b8 + 256 * b9 := by rw [lor_byte b9 b8 hb8]; omega
  have hll : (b7 <<< 8) ||| b8 = 256 * b7 + b8 := by rw [lor_byte b7 b8 hb8]
  refine ⟨?_, ?_, ?_, ?_⟩
  · rw [compute_region_err, h8, text_region_geometry_err_iff, hlp]
  · intro hgt hlt
    have hg : text_region_geometry off total ((vol.drop (off + 8)).take 2)
        = .ok (off + b9 + 5, total - b9 - 5) := by
      rw [h8]
      exact text_region_geometry_fb off total b8 b9 (by omega) hlt
    exact ⟨_, compute_region_of_geometry hg⟩
  · rw [extract_err_iff off total b7 b8 vol h7, hll]
  · intro hgt hle hlen
    exact extract_fb off total b7 b8 vol h7 (by omega) hle hlen

/-- Witness for C3 (amended): bytes b7 = 0, b8 = 200, b9 = 0 with span size
100.  The patch path's primary 200 is out of bounds, so it falls back to
b9 = 0 and succeeds at payload_start 5; the listing path's primary 200 and
its fallback b8 = 200 are both out of bounds, so it fails. -/
theorem c3_amended_witness :
    (∃ nul, compute_text_payload_region 0 100 [0, 0, 0, 0, 0, 0, 0, 0, 200, 0]
        = .ok (0 + 0 + 5, 100 - 0 - 5, nul)) ∧
    _extract_text_data 0 100 [0, 0, 0, 0, 0, 0, 0, 0, 200, 0]
        = .error .textOffsetOutOfBounds := by
  have h := c3_amended 0 100 [0, 0, 0, 0, 0, 0, 0, 0, 200, 0] 0 200 0 rfl rfl (by omega)
  exact ⟨h.2.1 (by omega) (by omega), h.2.2.1.mpr (by omega)⟩

/-- C5: a replacement whose encoded length equals the content capacity
(capacity - 1 when a trailing NUL is preserved, else capacity) is accepted
and written with zero padding; one whose encoded length is one byte longer
is rejected with the store left untouched (no truncation), for every
dry-run setting. -/
theorem c5_boundary (idx : Nat) (m1 m2 : List Char) (dirdata vol : List Nat)
    (off total p cap : Nat) (nul : Bool) (enc1 enc2 : List Nat)
    (h1 : get_offset_and_size_with_fallback idx dirdata vol.length = .ok (off, total))
    (h2 : compute_text_payload_region off total vol = .ok (p, cap, nul))
    (he1 : cp1255_encode m1.reverse = some enc1)
    (hl1 : enc1.length = (if nul && decide (0 < cap) then cap - 1 else cap))
    (he2 : cp1255_encode m2.reverse = some enc2)
    (hl2 : enc2.length = (if nul && decide (0 < cap) then cap - 1 else cap) + 1) :
    update_view_text idx m1 dirdata vol false =
      (fileWrite vol p ((enc1 ++ List.replicate 0 0x20) ++
        (if nul && decide (0 < cap) then [0] else [])), true) ∧
    (∀ dry, update_view_text idx m2 dirdata vol dry = (vol, false)) := by
  constructor
  · have h := update_ok h1 h2 he1 (le_of_eq hl1)
    have hz : (if nul && decide (0 < cap) then cap - 1 else cap) - enc1.length = 0 := by
      omega
    rw [hz] at h
    exact h
  · intro dry
    exact update_too_long dry h1 h2 he2 (by omega)

/-- Witness for C5: on volEx (content capacity 34 with the trailing NUL
reserved), 34 letters are accepted and written, 35 are rejected with the
store unchanged. -/
theorem c5_boundary_witness :
    update_view_text 0 (List.replicate 34 'a') dirEx volEx false
        = (fileWrite volEx 29 ((List.replicate 34 97 ++ List.replicate 0 0x20) ++ [0]), true) ∧
    update_view_text 0 (List.replicate 35 'a') dirEx volEx false = (volEx, false) := by
  have h := c5_boundary 0 (List.replicate 34 'a') (List.replicate 35 'a') dirEx volEx
      16 48 29 35 true (List.replicate 34 97) (List.replicate 35 97) rfl rfl rfl rfl rfl rfl
  refine ⟨?_, h.2 false⟩
  rw [h.1]
  rfl

/-- C7 counterexample: the claim says every accepted write preserves the
total store length.  With directory [0x000000, 0x000020] and a 16-byte
store, the directory-derived span (offset 0, size 32) overruns the store;
the patch is accepted and the write EXTENDS the file from 16 to 32 bytes. -/
theorem c7_counterexample :
    (update_view_text 0 [] dir7 vol7 false).2 = true ∧
    vol7.length = 16 ∧
    (update_view_text 0 [] dir7 vol7 false).1.length = 32 :=
  ⟨rfl, rfl, rfl⟩

/-- C7 (amended): every successful non-dry write writes one buffer of
length exactly region.capacity at payload_start, so the store length
becomes max(old length, payload_start + capacity); in particular the length
is preserved whenever the region lies within the store
(payload_start + capacity ≤ store length), and a span that overruns the
store's end grows the file. -/
theorem c7_write_length (idx : Nat) (msg : List Char) (dirdata vol : List Nat)
    (off total p cap : Nat) (nul : Bool) (enc : List Nat)
    (h1 : get_offset_and_size_with_fallback idx dirdata vol.length = .ok (off, total))
    (h2 : compute_text_payload_region off total vol = .ok (p, cap, nul))
    (h3 : cp1255_encode msg.reverse = some enc)
    (h4 : enc.length ≤ (if nul && decide (0 < cap) then cap - 1 else cap)) :
    (update_view_text idx msg dirdata vol false).2 = true ∧
    (∃ buf, buf.length = cap ∧
      (update_view_text idx msg dirdata vol false).1 = fileWrite vol p buf) ∧
    (update_view_text idx msg dirdata vol false).1.length = max vol.length (p + cap) ∧
    (p + cap ≤ vol.length → (update_view_text idx msg dirdata vol false).1.length
        = vol.length) := by
  have hup := update_ok h1 h2 h3 h4
  have hcap : 0 < cap := (text_region_geometry_ok (compute_region_ok h2).1).2.2.2
  have hblen : ((enc ++ List.replicate
      ((if nul && decide (0 < cap) then cap - 1 else cap) - enc.length) 0x20) ++
      (if nul && decide (0 < cap) then [0] else [])).length = cap := by
    cases hb : (nul && decide (0 < cap)) with
    | true =>
      rw [hb] at h4
      simp only [eq_self_iff_true, if_true, List.length_append, List.length_replicate,
        List.length_cons, List.length_nil] at h4 ⊢
      omega
    | false =>
      rw [hb] at h4
      simp only [Bool.false_eq_true, if_false, List.length_append, List.length_replicate,
        List.length_nil] at h4 ⊢
      omega
  rw [hup]
  refine ⟨rfl, ⟨_, hblen, rfl⟩, ?_, ?_⟩
  · rw [fileWrite_length, hblen]
  · intro hle
    rw [fileWrite_length, hblen]
    omega

/-- Witness for C7 (amended): the in-bounds instance on volEx — the span
ends exactly at the store's end, so the length is preserved at 64. -/
theorem c7_write_length_witness :
    (update_view_text 0 ['a'] dirEx volEx false).2 = true ∧
    (update_view_text 0 ['a'] dirEx volEx false).1.length = volEx.length := by
  have h := c7_write_length 0 ['a'] dirEx volEx 16 48 29 35 true [97] rfl rfl rfl (by decide)
  exact ⟨h.1, by rw [h.2.2.1]; rfl⟩

/-- C10: the batch driver reverses the message (`msg[::-1]`) before calling
`update_view_text`, and `update_view_text` reverses its argument again
before encoding; the two reversals cancel, so the content bytes written are
the cp1255 encoding of the text in its ORIGINAL character order. -/
theorem c10_no_net_reversal (idx : Nat) (msg : List Char) (dirdata vol : List Nat)
    (off total p cap : Nat) (nul : Bool) (enc : List Nat)
    (h1 : get_offset_and_size_with_fallback idx dirdata vol.length = .ok (off, total))
    (h2 : compute_text_payload_region off total vol = .ok (p, cap, nul))
    (h3 : cp1255_encode msg = some enc)
    (h4 : enc.length ≤ (if nul && decide (0 < cap) then cap - 1 else cap)) :
    update_view_text idx msg.reverse dirdata vol false =
      (fileWrite vol p
        ((enc ++ List.replicate
            ((if nul && decide (0 < cap) then cap - 1 else cap) - enc.length) 0x20) ++
          (if nul && decide (0 < cap) then [0] else [])), true) := by
  have h3r : cp1255_encode msg.reverse.reverse = some enc := by
    rw [List.reverse_reverse]
    exact h3
  exact update_ok h1 h2 h3r h4

/-- Witness for C10: msg = "aב" (a Latin and a Hebrew letter); the driver
passes its reversal, and the bytes written start with [0x61, 0xE1] — the
cp1255 encoding of msg in original order. -/
theorem c10_no_net_reversal_witness :
    update_view_text 0 (['a', 'ב'].reverse) dirEx volEx false
      = (fileWrite volEx 29 (([97, 225] ++ List.replicate 32 0x20) ++ [0]), true) := by
  rw [c10_no_net_reversal 0 ['a', 'ב'] dirEx volEx 16 48 29 35 true [97, 225]
    rfl rfl rfl (by decide)]
  rfl

/-- C9: the Batch Applier processes the input lines in order (the state is
folded left over the line list), never aborts on a per-line failure, and
ends with `processed` equal to the number of well-formed in-range lines,
`skipped` equal to the number of malformed lines, and `ok` equal to the
number of per-line patches that succeeded. -/
theorem c9_batch_counts (lines : List (List Char)) (dirdata vol : List Nat)
    (s e : Option Nat) (dry : Bool) :
    (apply_all lines dirdata vol s e dry).total = lines.countP (is_wf_in_range s e) ∧
    (apply_all lines dirdata vol s e dry).skipped = lines.countP is_malformed ∧
    (apply_all lines dirdata vol s e dry).ok
        = (success_flags dirdata s e dry vol lines).count true := by
  have h := apply_all_loop dirdata s e dry lines ⟨vol, 0, 0, 0⟩
  simpa [apply_all] using h

/-- C2 counterexample: the round-trip law `decode(write(region, T)) == T`
fails.  On volEx with T = "ab" (2 bytes, well within the content capacity
34), the patch succeeds, but reading index 0 back through the listing
interface returns "ba" followed by 32 pad spaces: the writer stores the
REVERSED text and the listing does not strip the 0x20 padding (it only
trims at the first NUL). -/
theorem c2_counterexample :
    (update_view_text 0 ['a', 'b'] dirEx volEx false).2 = true ∧
    listing_text 0 dirEx (update_view_text 0 ['a', 'b'] dirEx volEx false).1
        ≠ ['a', 'b'] ∧
    listing_text 0 dirEx (update_view_text 0 ['a', 'b'] dirEx volEx false).1
        = ['b', 'a'] ++ List.replicate 32 ' ' := by
  refine ⟨rfl, ?_, by rfl⟩
  intro h
  have h2 : (['b', 'a'] ++ List.replicate 32 ' ' : List Char) = ['a', 'b'] := by
    rw [← h]
    rfl
  simp at h2

/-- C8 counterexample: applying the identical (index, text) update twice is
NOT idempotent.  On vol8 the first patch has text_offset 0, so its payload
region [5, 64) covers the text-pointer bytes at offsets 8..9 and the write
fills them with 0x20.  The second identical patch therefore reads
text_offset 0x2020, falls back to the low byte 32, and writes its buffer at
region [37, 64), leaving different store contents (byte 37 becomes 'A',
byte 5 stays 'A'). -/
theorem c8_counterexample :
    (update_view_text 0 ['A'] dir8 vol8 false).2 = true ∧
    (update_view_text 0 ['A'] dir8 (update_view_text 0 ['A'] dir8 vol8 false).1 false).2
        = true ∧
    (update_view_text 0 ['A'] dir8 (update_view_text 0 ['A'] dir8 vol8 false).1 false).1
        ≠ (update_view_text 0 ['A'] dir8 vol8 false).1 := by
  refine ⟨rfl, rfl, ?_⟩
  intro h
  have h37 : ((update_view_text 0 ['A'] dir8
      (update_view_text 0 ['A'] dir8 vol8 false).1 false).1).getD 37 0
      = ((update_view_text 0 ['A'] dir8 vol8 false).1).getD 37 0 := by
    rw [h]
  have : (65 : Nat) = 32 := by
    rw [show ((update_view_text 0 ['A'] dir8
      (update_view_text 0 ['A'] dir8 vol8 false).1 false).1).getD 37 0 = 65 from rfl] at h37
    rw [show ((update_view_text 0 ['A'] dir8 vol8 false).1).getD 37 0 = 32 from rfl] at h37
    exact h37
  omega

/-- The buffer assembled by the Patch Writer always has length exactly
`capacity`: content + padding fill the content capacity, plus the preserved
NUL when one is reserved. -/
theorem update_buf_length {cap : Nat} {nul : Bool} {enc : List Nat}
    (hcap : 0 < cap)
    (h4 : enc.length ≤ (if nul && decide (0 < cap) then cap - 1 else cap)) :
    ((enc ++ List.replicate
        ((if nul && decide (0 < cap) then cap - 1 else cap) - enc.length) 0x20) ++
      (if nul && decide (0 < cap) then [0] else [])).length = cap := by
  cases hb : (nul && decide (0 < cap)) with
  | true =>
    rw [hb] at h4
    simp only [eq_self_iff_true, if_true, List.length_append, List.length_replicate,
      List.length_cons, List.length_nil] at h4 ⊢
    omega
  | false =>
    rw [hb] at h4
    simp only [Bool.false_eq_true, if_false, List.length_append, List.length_replicate,
      List.length_nil] at h4 ⊢
    omega

/-- C8 (amended): applying the identical (index, text) update twice leaves
the store byte-identical after the first application PROVIDED the written
region does not reach back over the text-pointer header bytes
(payload_start ≥ offset + 10) and lies within the store
(payload_start + capacity ≤ store length).  (The second run then recomputes
the same region and either rewrites the same buffer or — in the corner case
where the first write filled the capacity exactly with bytes ending in a
NUL — rejects and writes nothing.)  Without the header-overlap condition
idempotence fails, see the counterexample. -/
theorem c8_amended (idx : Nat) (msg : List Char) (dirdata vol : List Nat)
    (off total p cap : Nat) (nul : Bool)
    (h1 : get_offset_and_size_with_fallback idx dirdata vol.length = .ok (off, total))
    (h2 : compute_text_payload_region off total vol = .ok (p, cap, nul))
    (hp10 : off + 10 ≤ p)
    (hlen : p + cap ≤ vol.length)
    (hs : (update_view_text idx msg dirdata vol false).2 = true) :
    (update_view_text idx msg dirdata
        (update_view_text idx msg dirdata vol false).1 false).1
      = (update_view_text idx msg dirdata vol false).1 := by
  obtain ⟨enc, h3, h4⟩ := update_true_spec h1 h2 hs
  obtain ⟨hgeo, hnulx⟩ := compute_region_ok h2
  obtain ⟨hg5, hgle, hgcap, hgpos⟩ := text_region_geometry_ok hgeo
  have hple : p ≤ vol.length := by omega
  have hup := update_ok h1 h2 h3 h4
  rw [hup]
  simp only []
  set B := (enc ++ List.replicate
      ((if nul && decide (0 < cap) then cap - 1 else cap) - enc.length) 0x20) ++
      (if nul && decide (0 < cap) then [0] else []) with hB
  have hblen : B.length = cap := update_buf_length hgpos h4
  have len1 : (fileWrite vol p B).length = vol.length := by
    rw [fileWrite_length, hblen]
    omega
  have h1' : get_offset_and_size_with_fallback idx dirdata
      (fileWrite vol p B).length = .ok (off, total) := by
    rw [len1]
    exact h1
  have hsl : ((fileWrite vol p B).drop (off + 8)).take 2 = (vol.drop (off + 8)).take 2 :=
    fileWrite_slice_below hple (by omega)
  have hgeo2 : text_region_geometry off total
      (((fileWrite vol p B).drop (off + 8)).take 2) = .ok (p, cap) := by
    rw [hsl]
    exact hgeo
  have hrb : ((fileWrite vol p B).drop p).take cap = B := by
    rw [← hblen]
    exact fileWrite_readback B hple
  have h2' : compute_text_payload_region off total (fileWrite vol p B)
      = .ok (p, cap, (B.getLast? == some 0)) := by
    have h := compute_region_of_geometry hgeo2
    rw [hrb] at h
    exact h
  have hwse : fileWrite (fileWrite vol p B) p B = fileWrite vol p B :=
    fileWrite_self (fileWrite_readback B hple) (by rw [hblen, len1]; omega)
  have hd : decide (0 < cap) = true := by simpa using hgpos
  have hcase : (B.getLast? == some 0) = nul ∨
      (nul = false ∧ enc.length = cap ∧ (B.getLast? == some 0) = true) := by
    rcases Bool.eq_false_or_eq_true nul with hnul | hnul
    · left
      have hbt : (nul && decide (0 < cap)) = true := by rw [hnul, hd]; rfl
      have hBv : B.getLast? = some 0 := by
        rw [hB, hbt]
        simp only [if_pos rfl]
        exact List.getLast?_concat _
      rw [hBv, hnul]
      rfl
    · have hbt : (nul && decide (0 < cap)) = false := by rw [hnul]; rfl
      have h4f : enc.length ≤ cap := by
        rw [hbt] at h4
        simpa using h4
      rcases Nat.lt_or_ge enc.length cap with hlt | hge
      · left
        have hBv : B.getLast? = some 0x20 := by
          rw [hB, hbt]
          simp only [Bool.false_eq_true, if_false, List.append_nil]
          rw [List.getLast?_append]
          have hkk : cap - enc.length = (cap - enc.length - 1) + 1 := by omega
          rw [hkk, List.replicate_succ', List.getLast?_concat]
          rfl
        rw [hBv, hnul]
        rfl
      · have hge2 : enc.length = cap := by omega
        have hBv : B = enc := by
          rw [hB, hbt]
          simp only [Bool.false_eq_true, if_false, List.append_nil]
          have hz : cap - enc.length = 0 := by omega
          rw [hz]
          simp
        cases hel : (enc.getLast? == some 0) with
        | true => exact Or.inr ⟨hnul, hge2, by rw [hBv]; exact hel⟩
        | false => exact Or.inl (by rw [hBv, hel, hnul])
  rcases hcase with hsame | ⟨hnf, hel, hlast⟩
  · have h4x : enc.length ≤ (if (B.getLast? == some 0) && decide (0 < cap)
        then cap - 1 else cap) := by
      rw [hsame]
      exact h4
    have hup2 := update_ok h1' h2' h3 h4x
    rw [hup2]
    simp only []
    rw [hsame, ← hB]
    exact hwse
  · have h4x : enc.length > (if (B.getLast? == some 0) && decide (0 < cap)
        then cap - 1 else cap) := by
      rw [hlast, hd]
      simp
      omega
    have hup2 := update_too_long false h1' h2' h3 h4x
    rw [hup2]

/-- Witness for C8 (amended): on volEx the payload region [29, 64) is clear
of the header bytes and inside the store, so the second identical update
leaves the store unchanged. -/
theorem c8_amended_witness :
    (update_view_text 0 ['a', 'b'] dirEx
        (update_view_text 0 ['a', 'b'] dirEx volEx false).1 false).1
      = (update_view_text 0 ['a', 'b'] dirEx volEx false).1 :=
  c8_amended 0 ['a', 'b'] dirEx volEx 16 48 29 35 true rfl rfl (by omega) (by decide) rfl

/-- C2 (amended): the round trip does NOT return T.  Writing T stores
`cp1255(reverse T)` plus 0x20 padding (and the preserved NUL); reading the
same index back through the listing interface returns the latin-1 decoding
of `cp1255(reverse T) ++ padding` — the text comes back reversed and
byte-mapped, and the pad spaces are not stripped (the listing only trims at
the first NUL).  The equation requires the listing path to locate the same
region (its differently-read header bytes must decode to the same
text_offset), a present trailing NUL, NUL-free content bytes, a region
inside the store, and a region clear of the header bytes. -/
theorem c2_amended (idx : Nat) (T : List Char) (dirdata vol : List Nat)
    (off total p cap : Nat) (enc : List Nat) (b7 b8 : Nat)
    (h1 : get_offset_and_size_with_fallback idx dirdata vol.length = .ok (off, total))
    (h2 : compute_text_payload_region off total vol = .ok (p, cap, true))
    (h3 : cp1255_encode T.reverse = some enc)
    (h4 : enc.length ≤ cap - 1)
    (hnz : enc.all (fun b => b != 0) = true)
    (h7 : (vol.drop (off + 7)).take 2 = [b7, b8])
    (hb8 : b8 < 256)
    (hp : p = off + (256 * b7 + b8) + 5)
    (hp10 : off + 10 ≤ p)
    (hlen : p + cap ≤ vol.length) :
    listing_text idx dirdata (update_view_text idx T dirdata vol false).1
      = (enc ++ List.replicate (cap - 1 - enc.length) 0x20).map Char.ofNat := by
  obtain ⟨hgeo, hnulx⟩ := compute_region_ok h2
  obtain ⟨hg5, hgle, hgcap, hgpos⟩ := text_region_geometry_ok hgeo
  have hple : p ≤ vol.length := by omega
  have hd : decide (0 < cap) = true := by simpa using hgpos
  have hbt2 : (true && decide (0 < cap)) = true := by rw [hd]; rfl
  have hite : (if true && decide (0 < cap) then cap - 1 else cap) = cap - 1 := by
    rw [hbt2]
    exact if_pos rfl
  have h4x : enc.length ≤ (if true && decide (0 < cap) then cap - 1 else cap) := by
    rw [hite]
    exact h4
  have hup := update_ok h1 h2 h3 h4x
  rw [hup]
  simp only []
  set B := (enc ++ List.replicate
      ((if true && decide (0 < cap) then cap - 1 else cap) - enc.length) 0x20) ++
      (if true && decide (0 < cap) then [0] else []) with hB
  have hBv : B = (enc ++ List.replicate (cap - 1 - enc.length) 0x20) ++ [0] := by
    rw [hB, hbt2]
    simp only [if_pos rfl]
    rfl
  have hblen : B.length = cap := by
    rw [hBv]
    simp only [List.length_append, List.length_replicate, List.length_cons,
      List.length_nil]
    omega
  have len1 : (fileWrite vol p B).length = vol.length := by
    rw [fileWrite_length, hblen]
    omega
  obtain ⟨hcount, hdir, habs, hpos, next, hnext, htot⟩ := resolver_ok_spec h1
  have hlist : listing_text idx dirdata (fileWrite vol p B)
      = (match _extract_text_data off total (fileWrite vol p B) with
        | .error _ => []
        | .ok raw => latin1_decode (raw.takeWhile (fun b => b != 0))) := by
    cases next with
    | some n =>
      apply listing_text_eval hdir habs ?_ hnext
      simpa using htot.symm
    | none =>
      apply listing_text_eval hdir habs ?_ hnext
      rw [len1]
      simpa using htot.symm
  have hsl7 : ((fileWrite vol p B).drop (off + 7)).take 2 = (vol.drop (off + 7)).take 2 :=
    fileWrite_slice_below hple (by omega)
  have hx := extract_text_data_eval off total b7 b8 (fileWrite vol p B)
    (by rw [hsl7]; exact h7) hb8 (by omega) (by rw [len1]; omega)
  have hidx : off + (256 * b7 + b8) + 5 = p := hp.symm
  have hcnt : total - (256 * b7 + b8) - 5 = cap := by omega
  rw [hidx, hcnt] at hx
  have hrb : ((fileWrite vol p B).drop p).take cap = B := by
    rw [← hblen]
    exact fileWrite_readback B hple
  rw [hrb] at hx
  rw [hlist, hx]
  simp only []
  have hall : ∀ b ∈ (enc ++ List.replicate (cap - 1 - enc.length) 0x20),
      (fun x => x != 0) b = true := by
    intro b hb
    rcases List.mem_append.mp hb with hbe | hbr
    · exact List.all_eq_true.mp hnz b hbe
    · rw [List.eq_of_mem_replicate hbr]
      rfl
  have htw : B.takeWhile (fun b => b != 0)
      = enc ++ List.replicate (cap - 1 - enc.length) 0x20 := by
    rw [hBv, takeWhile_append_all hall]
    rw [show List.takeWhile (fun b => b != 0) [0] = [] from rfl, List.append_nil]
  rw [htw]
  rfl

/-- Witness for C2 (amended): writing T = "ab" on volEx and listing index 0
back returns the latin-1 view of [0x62, 0x61] (i.e. "ba") followed by 32
pad spaces — not "ab". -/
theorem c2_amended_witness :
    listing_text 0 dirEx (update_view_text 0 ['a', 'b'] dirEx volEx false).1
      = ([98, 97] ++ List.replicate 32 0x20).map Char.ofNat :=
  c2_amended 0 ['a', 'b'] dirEx volEx 16 48 29 35 [98, 97] 0 8
    rfl rfl rfl (by decide) rfl rfl (by omega) rfl (by omega) (by decide)
